import Mathlib

/-!
Verification of the `sizeof` utility (src/sizeof.py): a shallow embedding of
its filter/query evaluation engine (glob pattern groups, size and duration
literal parsing, inclusive/inverted range matching) and of its recursive
directory aggregation algorithm, together with theorems settling the frozen
specification claims.

Conventions of the embedding:
* Python strings are Lean `String`s, scanned as `List Char`.
* Python `float` values arising from the literal parsers are modelled as exact
  rationals (`ℚ`); on every literal appearing in a claim the IEEE double value
  is exactly representable, so the models agree.
* Fallible Python code (raising `ValueError` / `OverflowError`) is modelled
  with `Except String`.
* `datetime` instants are records of calendar fields; `timestamp` converts to
  seconds since the Unix epoch using the proleptic Gregorian calendar with the
  process timezone taken to be UTC (CPython's `_ymd2ord` day count).
-/

/-! ## Glob matching (model of Python's `fnmatch.fnmatch` on POSIX)

`fnmatch.translate` turns a pattern into an anchored regex: `*` becomes `.*`,
`?` becomes `.`, `[...]` a character class (leading `!` negates, a leading `]`
is literal, `a-b` is a range, an unterminated `[` is a literal bracket), and
any other character is literal.  On POSIX `os.path.normcase` is the identity,
so matching is case sensitive. -/

inductive GlobTok where
  | star : GlobTok
  | qmark : GlobTok
  | lit : Char → GlobTok
  | cls : Bool → List Char → GlobTok
deriving DecidableEq

/-- Splits a character-class body at the first `]`, returning the class
contents and the remainder of the pattern; `none` when no `]` closes it. -/
def splitClass : List Char → Option (List Char × List Char)
  | [] => none
  | ']' :: rest => some ([], rest)
  | c :: rest =>
    match splitClass rest with
    | some (cs, r) => some (c :: cs, r)
    | none => none

/-- Splits a class body whose first character may be a literal `]`
(mirroring `fnmatch.translate`, which skips a leading `]` before searching
for the closing bracket). -/
def splitClassFirst : List Char → Option (List Char × List Char)
  | ']' :: rest =>
    match splitClass rest with
    | some (cs, r) => some (']' :: cs, r)
    | none => none
  | l => splitClass l

/-- Tokenizes a glob pattern the way `fnmatch.translate` reads it.  Recursion
after a character class resumes at an arbitrary suffix, so the definition is
driven by a fuel counter that the wrapper `translateGlob` instantiates with
the pattern length plus one, which every call chain respects because each
step consumes at least one character. -/
def translateGlobFuel : Nat → List Char → List GlobTok
  | 0, _ => []
  | _, [] => []
  | fuel + 1, '*' :: rest => GlobTok.star :: translateGlobFuel fuel rest
  | fuel + 1, '?' :: rest => GlobTok.qmark :: translateGlobFuel fuel rest
  | fuel + 1, '[' :: rest =>
    let negRest : Bool × List Char :=
      match rest with
      | '!' :: r => (true, r)
      | _ => (false, rest)
    match splitClassFirst negRest.2 with
    | some (cs, r) => GlobTok.cls negRest.1 cs :: translateGlobFuel fuel r
    | none => GlobTok.lit '[' :: translateGlobFuel fuel rest
  | fuel + 1, c :: rest => GlobTok.lit c :: translateGlobFuel fuel rest

def translateGlob (p : List Char) : List GlobTok :=
  translateGlobFuel (p.length + 1) p

/-- Membership of a character in a class body, with `a-b` ranges; a trailing
`-` is literal, as in the regex `fnmatch.translate` produces. -/
def classMatch : List Char → Char → Bool
  | a :: '-' :: b :: rest, c => (a ≤ c && c ≤ b) || classMatch rest c
  | a :: rest, c => (a == c) || classMatch rest c
  | [], _ => false

/-- Matches a tokenized glob pattern against a name, anchored at both ends
(`fnmatch` compiles to a regex used with a full match).  A `star` consumes an
arbitrary number of characters. -/
def globMatch : List GlobTok → List Char → Bool
  | [], ss => ss.isEmpty
  | GlobTok.star :: ts, ss =>
    (List.range (ss.length + 1)).any fun k => globMatch ts (ss.drop k)
  | GlobTok.qmark :: ts, ss =>
    match ss with
    | [] => false
    | _ :: ss' => globMatch ts ss'
  | GlobTok.lit a :: ts, ss =>
    match ss with
    | [] => false
    | c :: ss' => a == c && globMatch ts ss'
  | GlobTok.cls neg items :: ts, ss =>
    match ss with
    | [] => false
    | c :: ss' => (classMatch items c != neg) && globMatch ts ss'

/-- Model of `fnmatch.fnmatch(fname, pattern)` on POSIX. -/
def fnmatch (fname pattern : String) : Bool :=
  globMatch (translateGlob pattern.toList) fname.toList

/-! ## Pattern groups (src/sizeof.py lines 113-128) -/

/-- Model of `and_match`: vacuously `on_empty` when the group is absent or
empty, otherwise true when every pattern matches. -/
def and_match (fname : String) (patterns : List String) (on_empty : Bool) : Bool :=
  if patterns = [] then on_empty
  else patterns.all fun p => fnmatch fname p

/-- Model of `or_match`: vacuously `on_empty` when the group is absent or
empty, otherwise true when some pattern matches. -/
def or_match (fname : String) (patterns : List String) (on_empty : Bool) : Bool :=
  if patterns = [] then on_empty
  else patterns.any fun p => fnmatch fname p

/-! ## Arguments record

Fields of the parsed-argument namespace that the walk and the matcher read.
`and_all`, `not_any`, `not_all` may be `None` in Python; `None` and `[]` are
indistinguishable to `and_match`/`or_match` (both are falsy), so absent groups
are modelled as `[]`. -/

structure Args where
  follow_links : Bool
  directories : Bool
  files : Bool
  insensitive : Bool
  or_any : List String
  and_all : List String
  not_any : List String
  not_all : List String
  min_bytes : Option ℚ
  max_bytes : Option ℚ
  min_date : Option ℚ
  max_date : Option ℚ
  scale : Nat
  summary : Bool
  quiet : Bool
  verbose : Bool

/-- Model of `matches(fname, args)` (lines 125-128): lowercase the name when
case-insensitive, then conjoin the four pattern-group verdicts.  (`matches` is
a reserved word in Lean, hence the name `matchesName`.) -/
def matchesName (fname : String) (args : Args) : Bool :=
  let fname := if args.insensitive then fname.toLower else fname
  or_match fname args.or_any true && and_match fname args.and_all true &&
    !(or_match fname args.not_any false) && !(and_match fname args.not_all false)

/-! ## Range matcher (lines 130-133) -/

/-- Model of `int_match_pair(min_limit, max_limit, value)`: one-sided
inclusive tests when a bound is absent, the inclusive interval test when
`min ≤ max`, and the negated strict-interior test when the bounds are
swapped. -/
def int_match_pair (min_limit max_limit : Option ℚ) (value : ℚ) : Bool :=
  match min_limit, max_limit with
  | none, none => true
  | none, some mx => decide (value ≤ mx)
  | some mn, none => decide (mn ≤ value)
  | some mn, some mx =>
    if mn ≤ mx then decide (mn ≤ value ∧ value ≤ mx)
    else decide (¬(mx < value ∧ value < mn))

/-- Model of `stat_match(stat, args)` (lines 135-137) on a file's byte size
and modification timestamp. -/
def stat_match (size : Nat) (mtime : Int) (args : Args) : Bool :=
  int_match_pair args.min_bytes args.max_bytes (size : ℚ) &&
    int_match_pair args.min_date args.max_date (mtime : ℚ)

/-! ## Size literal parser (lines 41-61) -/

/-- Index of an uppercased character in the `PREFIX` tuple, searched from
index 1 as the source's `range(1, len(PREFIX))` does (index 0 is a space and
is never reached because spaces are skipped earlier). -/
def scalePrefixIndex (ch : Char) : Option Nat :=
  if ch = 'K' then some 1
  else if ch = 'M' then some 2
  else if ch = 'G' then some 3
  else if ch = 'T' then some 4
  else if ch = 'P' then some 5
  else none

/-- Scanner loop of `to_int_size` while no scale prefix has been fixed:
spaces and underscores are skipped, digits and periods accumulate into the
numeric buffer, any other character must name a scale prefix (else
`ValueError`).  Once a prefix is fixed the very next character, whatever it
is, only decides binary scale (`'i'`) and scanning stops — mirroring the
`if scale > 0: is_binary = ch == "i"; break` at the top of the source loop. -/
def sizeScan : List Char → List Char → Except String (List Char × Nat × Bool)
  | [], number => Except.ok (number, 0, false)
  | ch :: rest, number =>
    if ch = ' ' ∨ ch = '_' then sizeScan rest number
    else if ('0' ≤ ch ∧ ch ≤ '9') ∨ ch = '.' then sizeScan rest (number ++ [ch])
    else
      match scalePrefixIndex ch.toUpper with
      | some idx =>
        match rest with
        | [] => Except.ok (number, idx, false)
        | c2 :: _ => Except.ok (number, idx, c2 = 'i')
      | none => Except.error ("Unknown symbol " ++ String.singleton ch.toUpper)

/-- Numeric value of a list of decimal digit characters. -/
def natOfDigits (l : List Char) : Nat :=
  l.foldl (fun a c => a * 10 + (c.toNat - '0'.toNat)) 0

/-- Model of Python's `float()` on the numeric buffer of `to_int_size`, whose
characters are only digits and periods: defined (as an exact rational) when
the buffer holds at least one digit and at most one period, and a parse
failure otherwise. -/
def parseDecimal (cs : List Char) : Option ℚ :=
  if !(cs.all fun c => c.isDigit || c = '.') then none
  else if cs.count '.' = 0 then
    if cs ≠ [] then some (natOfDigits cs) else none
  else if cs.count '.' = 1 then
    let a := cs.takeWhile fun c => c ≠ '.'
    let b := (cs.dropWhile fun c => c ≠ '.').drop 1
    if a ≠ [] ∨ b ≠ [] then
      some ((natOfDigits a : ℚ) + (natOfDigits b : ℚ) / (10 ^ b.length))
    else none
  else none

/-- Model of `to_int_size(size_str)`: scan the string, then return
`float(number) * (1024 if is_binary else 1000) ** scale`.  The function takes
no display-scale input, so its result depends on the literal text alone. -/
def to_int_size (size_str : String) : Except String ℚ :=
  match sizeScan size_str.toList [] with
  | Except.error e => Except.error e
  | Except.ok (number, scale, is_binary) =>
    match parseDecimal number with
    | some q => Except.ok (q * ((if is_binary then 1024 else 1000) : ℚ) ^ scale)
    | none => Except.error "could not convert string to float"

/-! ## Calendar instants (model of naive `datetime` values)

`DateTime` carries the calendar fields of a (microsecond-free) naive
`datetime`.  `timestamp` converts to seconds since the Unix epoch using
CPython's proleptic-Gregorian day count (`_ymd2ord`), with the process
timezone taken to be UTC. -/

structure DateTime where
  year : Nat
  month : Nat
  day : Nat
  hour : Nat
  minute : Nat
  second : Nat
deriving DecidableEq

/-- Gregorian leap-year test. -/
def isLeap (y : Nat) : Bool :=
  y % 4 = 0 && (y % 100 != 0 || y % 400 = 0)

/-- Length in days of month `m` of year `y`. -/
def daysInMonth (y m : Nat) : Nat :=
  if m = 2 then (if isLeap y then 29 else 28)
  else if m = 4 ∨ m = 6 ∨ m = 9 ∨ m = 11 then 30
  else 31

/-- Number of days in year `y` before month `m`. -/
def daysBeforeMonth (y m : Nat) : Nat :=
  (List.range m).foldl (fun a i => if 1 ≤ i then a + daysInMonth y i else a) 0

/-- Number of days before January 1 of year `y` counting from year 1
(CPython's `_days_before_year`). -/
def daysBeforeYear (y : Nat) : Nat :=
  365 * (y - 1) + (y - 1) / 4 - (y - 1) / 100 + (y - 1) / 400

/-- Proleptic Gregorian ordinal of the date, where January 1 of year 1 has
ordinal 1 (CPython's `_ymd2ord`). -/
def toordinal (dt : DateTime) : Nat :=
  daysBeforeYear dt.year + daysBeforeMonth dt.year dt.month + dt.day

/-- Seconds since the Unix epoch of a naive instant, taking the process
timezone to be UTC; ordinal 719163 is 1970-01-01. -/
def timestamp (dt : DateTime) : Int :=
  ((toordinal dt : Int) - 719163) * 86400 + dt.hour * 3600 + dt.minute * 60 + dt.second

/-- Field validity enforced by the `datetime` constructor (and so by
`datetime.replace`): `MINYEAR = 1`, `MAXYEAR = 9999`, day within the month,
time fields in range. -/
def DateTime.Valid (dt : DateTime) : Prop :=
  1 ≤ dt.year ∧ dt.year ≤ 9999 ∧ 1 ≤ dt.month ∧ dt.month ≤ 12 ∧
    1 ≤ dt.day ∧ dt.day ≤ daysInMonth dt.year dt.month ∧
    dt.hour ≤ 23 ∧ dt.minute ≤ 59 ∧ dt.second ≤ 59

instance (dt : DateTime) : Decidable dt.Valid := by
  unfold DateTime.Valid; infer_instance

/-- Earliest representable timestamp (`datetime.min`, 0001-01-01T00:00:00). -/
def minTimestamp : Int := timestamp ⟨1, 1, 1, 0, 0, 0⟩

/-- Latest whole-second timestamp (`datetime.max` truncated to seconds,
9999-12-31T23:59:59). -/
def maxTimestamp : Int := timestamp ⟨9999, 12, 31, 23, 59, 59⟩

/-- Model of `datetime.replace(year=y, month=m)` followed by the constructor
validation: the remaining fields are kept, and a `ValueError` is raised when
any field is out of range for the new year/month. -/
def replaceYM (now : DateTime) (y m : Nat) : Except String DateTime :=
  let dt : DateTime := ⟨y, m, now.day, now.hour, now.minute, now.second⟩
  if dt.Valid then Except.ok dt else Except.error "ValueError: date value out of range"

/-- Model of subtracting a `timedelta` from a valid `datetime` and taking the
timestamp of the result: exact integer arithmetic on the epoch timestamp,
raising `OverflowError` when the result falls outside the representable
`datetime` range. -/
def subDelta (t : Int) (deltaSeconds : Int) : Except String Int :=
  let r := t - deltaSeconds
  if minTimestamp ≤ r ∧ r ≤ maxTimestamp then Except.ok r
  else Except.error "OverflowError: date value out of range"

/-! ## Date/duration literal parser (src/sizeof.py lines 63-111) -/

/-- Model of `datetime.fromisoformat` restricted to the extended forms
`YYYY-MM-DD` and `YYYY-MM-DD<sep>HH:MM:SS`: `none` models the `ValueError`
that `to_int_date` catches before falling through to duration parsing.
Every duration literal appearing in a claim fails this shape test under any
CPython version. -/
def fromisoformatModel (s : String) : Option DateTime :=
  let build : List Char → List Char → List Char → List Char → List Char → List Char →
      Option DateTime := fun ys ms ds hs ns ss =>
    if (ys ++ ms ++ ds ++ hs ++ ns ++ ss).all Char.isDigit then
      let dt : DateTime :=
        ⟨natOfDigits ys, natOfDigits ms, natOfDigits ds,
          natOfDigits hs, natOfDigits ns, natOfDigits ss⟩
      if dt.Valid then some dt else none
    else none
  match s.toList with
  | [y1, y2, y3, y4, '-', m1, m2, '-', d1, d2] =>
    build [y1, y2, y3, y4] [m1, m2] [d1, d2] ['0'] ['0'] ['0']
  | [y1, y2, y3, y4, '-', m1, m2, '-', d1, d2, _, h1, h2, ':', n1, n2, ':', s1, s2] =>
    build [y1, y2, y3, y4] [m1, m2] [d1, d2] [h1, h2] [n1, n2] [s1, s2]
  | _ => none

/-- State of the duration tokenizer: the mutable `units` dict and the
`cur_int_str` / `cur_unit_str` / `is_unit` closure variables of
`to_int_date`. -/
structure TokState where
  units : List (String × Nat)
  cur_int : List Char
  cur_unit : List Char
  is_unit : Bool
deriving DecidableEq

/-- Initial `units` dict of `to_int_date`, in source order. -/
def initUnits : List (String × Nat) :=
  [("y", 0), ("year", 0), ("M", 0), ("month", 0), ("w", 0), ("week", 0),
   ("d", 0), ("day", 0), ("h", 0), ("hour", 0), ("m", 0), ("min", 0),
   ("minute", 0), ("", 0), ("sec", 0), ("second", 0)]

def initTokState : TokState := ⟨initUnits, [], [], false⟩

/-- Adds `n` to the entry of key `k` (the dict update `units[unit] += ...`). -/
def bumpUnit (l : List (String × Nat)) (k : String) (n : Nat) : List (String × Nat) :=
  l.map fun p => if p.1 = k then (p.1, p.2 + n) else p

/-- Looks up a key's accumulated amount (0 when absent, which never happens
for the fixed key set). -/
def getUnit (l : List (String × Nat)) (k : String) : Nat :=
  ((l.find? fun p => p.1 = k).map fun p => p.2).getD 0

/-- Model of the `cut_num` closure: when a unit token is pending, strip one
trailing `s`, require the unit key to exist (else `ValueError`), add
`int(cur_int_str or 1)` to it, and clear the token state; otherwise do
nothing. -/
def cutNum (st : TokState) : Except String TokState :=
  if st.is_unit then
    let unit : List Char :=
      match st.cur_unit.getLast? with
      | some 's' => st.cur_unit.dropLast
      | _ => st.cur_unit
    let key : String := String.mk unit
    if (st.units.find? fun p => p.1 = key).isSome then
      Except.ok ⟨bumpUnit st.units key (if st.cur_int = [] then 1 else natOfDigits st.cur_int),
        [], [], false⟩
    else Except.error ("Time unit not recognized! " ++ key)
  else Except.ok st

/-- Character loop of the duration parser: separators flush the pending
token, digits flush then extend the number, anything else extends the unit
text. -/
def durLoop : List Char → TokState → Except String TokState
  | [], st => Except.ok st
  | ch :: rest, st =>
    if ch = ' ' ∨ ch = '_' then
      match cutNum st with
      | Except.ok st' => durLoop rest st'
      | Except.error e => Except.error e
    else if '0' ≤ ch ∧ ch ≤ '9' then
      match cutNum st with
      | Except.ok st' => durLoop rest { st' with cur_int := st'.cur_int ++ [ch] }
      | Except.error e => Except.error e
    else durLoop rest { st with is_unit := true, cur_unit := st.cur_unit ++ [ch] }

/-- Post-loop flush: a pending unit token is cut; otherwise a bare trailing
number is added to the seconds entry. -/
def finishTok (st : TokState) : Except String (List (String × Nat)) :=
  if st.is_unit then
    match cutNum st with
    | Except.ok st' => Except.ok st'.units
    | Except.error e => Except.error e
  else if st.cur_int ≠ [] then
    Except.ok (bumpUnit st.units "sec" (natOfDigits st.cur_int))
  else Except.ok st.units

/-- Accumulated unit table of a duration literal. -/
def durUnits (date_str : String) : Except String (List (String × Nat)) :=
  match durLoop date_str.toList initTokState with
  | Except.ok st => finishTok st
  | Except.error e => Except.error e

/-- Resolution of an accumulated unit table against the reference instant
`now` (lines 97-111): days/weeks/hours/minutes/seconds form a fixed delta;
total months are reduced modulo 12 with carry into years; the reference
month is decremented with borrow when it drops to 0 or below; then the
year/month-replaced instant, validated as a date, has the fixed delta
subtracted from its timestamp. -/
def durResolve (units : List (String × Nat)) (now : DateTime) : Except String Int :=
  let deltaSeconds : Int :=
    (getUnit units "d" + getUnit units "day" + 7 * (getUnit units "w" + getUnit units "week")) * 86400
      + (getUnit units "h" + getUnit units "hour") * 3600
      + (getUnit units "m" + getUnit units "min" + getUnit units "minute") * 60
      + (getUnit units "" + getUnit units "sec" + getUnit units "second")
  let monthTotal : Nat := getUnit units "M" + getUnit units "month"
  let years : Nat := getUnit units "y" + getUnit units "year" + monthTotal / 12
  let month : Int := (now.month : Int) - (monthTotal % 12 : Nat)
  let yearsMonth : Nat × Int := if month ≤ 0 then (years + 1, month + 12) else (years, month)
  match replaceYM now (now.year - yearsMonth.1) yearsMonth.2.toNat with
  | Except.ok dt => subDelta (timestamp dt) deltaSeconds
  | Except.error e => Except.error e

/-- Model of `to_int_date(date_str, now)`: try the ISO form first; on its
`ValueError` fall through to duration parsing and resolution. -/
def to_int_date (date_str : String) (now : DateTime) : Except String Int :=
  match fromisoformatModel date_str with
  | some dt => Except.ok (timestamp dt)
  | none =>
    match durUnits date_str with
    | Except.ok units => durResolve units now
    | Except.error e => Except.error e

/-! ## Directory tree and walk (src/sizeof.py lines 139-166)

An `Entry` is what one `scandir` entry looks like to the walk: its name, the
symlink flag, and its (symlink-resolved) classification — regular file with
size and modification time, directory with its own entries, or anything else
(fifo, socket, broken symlink target, ...), for which both `is_dir()` and
`is_file()` are false. -/

inductive Entry where
  | file : String → Nat → Int → Bool → Entry
  | dir : String → List Entry → Bool → Entry
  | other : String → Bool → Entry

/-- Lines the walk prints: a matched-file line (flag `-f`) or a per-directory
report (flag `-d`).  The numeric payload is the raw byte value handed to the
`format_size` display formatter, which is outside the verified core. -/
inductive OutLine where
  | fileLine : String → Nat → OutLine
  | dirLine : String → Nat → OutLine
deriving DecidableEq

/-- Numeric accumulators of one directory's loop, in source order:
`matched_size, matched_in_subdirs, matched_count, total_size, total_files`. -/
abbrev WalkAcc := Nat × Nat × Nat × Nat × Nat

/-- Post-loop step of `process_directory`: print this directory's own-level
`matched_size` when `-d` is set, and return
`(matched_size + matched_in_subdirs, matched_count, total_size, total_files)`. -/
def finishDir (args : Args) (loc : String) (s : WalkAcc × List OutLine) :
    (Nat × Nat × Nat × Nat) × List OutLine :=
  ((s.1.1 + s.1.2.1, s.1.2.2.1, s.1.2.2.2.1, s.1.2.2.2.2),
    s.2 ++ (if args.directories then [OutLine.dirLine loc s.1.1] else []))

mutual

/-- Contribution of a single `scandir` entry to the enclosing directory's
accumulators and output.  Symlinks are skipped unless `--follow-links`;
directories recurse (their cumulative matches land in `matched_in_subdirs`);
files always count toward the totals and, when the name query and the stat
ranges both pass, toward this level's own matches; anything else contributes
nothing. -/
def process_entry (args : Args) (loc : String) : Entry → WalkAcc × List OutLine
  | Entry.file name size mtime sl =>
    if sl && !args.follow_links then ((0, 0, 0, 0, 0), [])
    else if matchesName name args && stat_match size mtime args then
      ((size, 0, 1, size, 1),
        if args.files then [OutLine.fileLine (loc ++ "/" ++ name) size] else [])
    else ((0, 0, 0, size, 1), [])
  | Entry.dir name sub sl =>
    if sl && !args.follow_links then ((0, 0, 0, 0, 0), [])
    else
      let r := finishDir args (loc ++ "/" ++ name) (process_entries args (loc ++ "/" ++ name) sub)
      ((0, r.1.1, r.1.2.1, r.1.2.2.1, r.1.2.2.2), r.2)
  | Entry.other _ _ => ((0, 0, 0, 0, 0), [])

/-- The `for entry in it` loop of `process_directory`, summed left to right;
output lines are emitted in visit order. -/
def process_entries (args : Args) (loc : String) : List Entry → WalkAcc × List OutLine
  | [] => ((0, 0, 0, 0, 0), [])
  | e :: rest =>
    let a := process_entry args loc e
    let b := process_entries args loc rest
    (a.1 + b.1, a.2 ++ b.2)

end

/-- Model of `process_directory(loc, args)`: run the entry loop, then report
and return as `finishDir` describes. -/
def process_directory (args : Args) (loc : String) (entries : List Entry) :
    (Nat × Nat × Nat × Nat) × List OutLine :=
  finishDir args loc (process_entries args loc entries)

/-! ## Argument processing and program startup (lines 168-234, 262-265)

`Cli` carries the raw values the `argparse` collaborator delivers.  The
`not_all` flag uses `nargs="+"` with `action="append"`, so it arrives as a
list of groups of which `process_args` keeps only the first.  `isdir` stands
for the `path.isdir` filesystem capability consulted when no explicit start
path is given. -/

structure Cli where
  patterns : List String
  directories : Bool
  files : Bool
  verbose : Bool
  summary : Bool
  quiet : Bool
  path : Option String
  scale : Nat
  follow_links : Bool
  insensitive : Bool
  and_all : List String
  or_any : List String
  not_any : List String
  not_all : List (List String)
  min_size : Option String
  max_size : Option String
  newer : Option String
  older : Option String

/-- Parses an optional literal with a parser, keeping absence as `none` (the
`to_x(s) if s else None` idiom). -/
def parseOpt (f : String → Except String ℚ) : Option String → Except String (Option ℚ)
  | none => Except.ok none
  | some s =>
    match f s with
    | Except.ok v => Except.ok (some v)
    | Except.error e => Except.error e

/-- Model of `process_args` after `argparse`: parse the date bounds (exiting
on `ValueError`), then the size bounds (likewise), resolve the start path
(consuming a leading directory positional when no `-p` was given), append the
positionals to the or-group, keep the first not-all group, reject `-q`
combined with `-v`/`-f`/`-d`/`-s`, let `-v` imply `-f` and `-s`, and
lowercase every pattern group when `-i` is set. -/
def process_args_model (isdir : String → Bool) (cli : Cli) (now : DateTime) :
    Except String (Args × String) :=
  match parseOpt (fun s => (to_int_date s now).map fun v => (v : ℚ)) cli.newer with
  | Except.error e => Except.error ("Error parsing time argument: " ++ e)
  | Except.ok min_date =>
  match parseOpt (fun s => (to_int_date s now).map fun v => (v : ℚ)) cli.older with
  | Except.error e => Except.error ("Error parsing time argument: " ++ e)
  | Except.ok max_date =>
  match parseOpt to_int_size cli.min_size with
  | Except.error e => Except.error ("Error parsing a size argument: " ++ e)
  | Except.ok min_bytes =>
  match parseOpt to_int_size cli.max_size with
  | Except.error e => Except.error ("Error parsing a size argument: " ++ e)
  | Except.ok max_bytes =>
  let pathPatterns : String × List String :=
    match cli.path with
    | some p => (p, cli.patterns)
    | none =>
      match cli.patterns with
      | [] => (".", cli.patterns)
      | p :: rest => if isdir p then (p, rest) else (".", cli.patterns)
  let or_any := cli.or_any ++ pathPatterns.2
  let not_all := (cli.not_all.head?).getD []
  if cli.quiet && (cli.verbose || cli.files || cli.directories || cli.summary) then
    Except.error "Cannot not use -v, -s, -d, or -f with -q"
  else
    let files := cli.files || cli.verbose
    let summary := cli.summary || cli.verbose
    let lower : List String → List String :=
      fun l => if cli.insensitive then l.map String.toLower else l
    Except.ok
      (⟨cli.follow_links, cli.directories, files, cli.insensitive,
        lower or_any, lower cli.and_all, lower cli.not_any, lower not_all,
        min_bytes, max_bytes, min_date, max_date,
        cli.scale, summary, cli.quiet, cli.verbose⟩,
       pathPatterns.1)

/-- Model of `main` up to the walk: argument processing runs first and any
literal parse failure exits before `process_directory` ever runs; otherwise
the walk result for the resolved start path is produced.  (The tree stands
for what the filesystem holds at that path.) -/
def main_model (isdir : String → Bool) (cli : Cli) (now : DateTime)
    (tree : List Entry) : Except String ((Nat × Nat × Nat × Nat) × List OutLine) :=
  match process_args_model isdir cli now with
  | Except.error e => Except.error e
  | Except.ok (args, start) => Except.ok (process_directory args start tree)

/-! ## Specification-side quantities

These follow the specification's wording (not the source) and are compared
against the walk: a directory's own-level matched size, the cumulative
matched size of its immediate subdirectories, and the number of non-skipped
file entries in a whole tree. -/

/-- Summed size of a directory's own directly-contained matching files:
non-skipped file entries passing both the name query and the stat ranges. -/
def ownLevelMatchedSize (args : Args) : List Entry → Nat
  | [] => 0
  | Entry.file name size mtime sl :: rest =>
    (if !(sl && !args.follow_links) && matchesName name args && stat_match size mtime args
      then size else 0) + ownLevelMatchedSize args rest
  | _ :: rest => ownLevelMatchedSize args rest

/-- Summed cumulative `matchedSize` returned by the walk for a directory's
non-skipped immediate subdirectories. -/
def subdirsMatchedSize (args : Args) (loc : String) : List Entry → Nat
  | [] => 0
  | Entry.dir name sub sl :: rest =>
    (if sl && !args.follow_links then 0
      else (process_directory args (loc ++ "/" ++ name) sub).1.1)
      + subdirsMatchedSize args loc rest
  | _ :: rest => subdirsMatchedSize args loc rest

mutual

/-- Number of non-skipped file entries contributed by one entry: a file
(unless skipped as a symlink) counts once, a non-skipped directory
contributes its subtree's count, anything else contributes none. -/
def specFileCountEntry (follow : Bool) : Entry → Nat
  | Entry.file _ _ _ sl => if sl && !follow then 0 else 1
  | Entry.dir _ sub sl => if sl && !follow then 0 else specFileCountList follow sub
  | Entry.other _ _ => 0

/-- Number of non-skipped file entries in a whole tree. -/
def specFileCountList (follow : Bool) : List Entry → Nat
  | [] => 0
  | e :: rest => specFileCountEntry follow e + specFileCountList follow rest

end

/-! ## Walk lemmas -/

/-- The loop accumulators `matched_size` and `matched_in_subdirs` are exactly
the spec-side own-level and immediate-subdirectory sums. -/
theorem process_entries_own_sub (args : Args) (loc : String) (l : List Entry) :
    (process_entries args loc l).1.1 = ownLevelMatchedSize args l ∧
      (process_entries args loc l).1.2.1 = subdirsMatchedSize args loc l := by
  induction l with
  | nil => exact ⟨rfl, rfl⟩
  | cons e rest ih =>
    cases e with
    | file name size mtime sl =>
      simp only [process_entries, process_entry, ownLevelMatchedSize, subdirsMatchedSize,
        Prod.fst_add, Prod.snd_add]
      by_cases h1 : (sl && !args.follow_links) = true
      · simp [h1, ih.1, ih.2]
      · simp only [h1]
        by_cases h2 : (matchesName name args && stat_match size mtime args) = true
        · simp [h2, Bool.not_eq_true _ ▸ h1, ih.1, ih.2]
        · simp [h2, ih.1, ih.2]
    | dir name sub sl =>
      simp only [process_entries, process_entry, ownLevelMatchedSize, subdirsMatchedSize,
        Prod.fst_add, Prod.snd_add]
      by_cases h1 : (sl && !args.follow_links) = true
      · simp [h1, ih.1, ih.2]
      · simp [h1, ih.1, ih.2, process_directory]
    | other name sl =>
      simp only [process_entries, process_entry, ownLevelMatchedSize, subdirsMatchedSize,
        Prod.fst_add, Prod.snd_add]
      simp [ih.1, ih.2]

/-- C1: with the per-directory flag set, the report line emitted for the
walked directory (the last line it prints, after all lines from its subtree)
carries exactly the summed size of that directory's own directly-contained
matching files, while the returned `matchedSize` is that own-level sum plus
the cumulative matched size of its immediate (hence all descendant)
subdirectories — e.g. a directory with a matching file of size 10 and a
subdirectory holding a matching file of size 20 reports 10 and returns 30. -/
theorem per_directory_report_is_own_level (args : Args) (loc : String)
    (entries : List Entry) (hd : args.directories = true) :
    (process_directory args loc entries).2.getLast? =
      some (OutLine.dirLine loc (ownLevelMatchedSize args entries)) ∧
    (process_directory args loc entries).1.1 =
      ownLevelMatchedSize args entries + subdirsMatchedSize args loc entries := by
  have h := process_entries_own_sub args loc entries
  constructor
  · simp [process_directory, finishDir, hd, h.1, List.getLast?_concat]
  · simp [process_directory, finishDir, h.1, h.2]

/-- C1 witness: the claim's own example. Directory `A` holds file `f1` of
size 10 and subdirectory `B` holding file `f2` of size 20; with an
all-matching query and `-d` set, `A` reports 10 and returns cumulative 30. -/
theorem per_directory_report_is_own_level_witness :
    ((process_directory
        ⟨false, true, false, false, [], [], [], [], none, none, none, none,
          1000, false, false, false⟩ "A"
        [Entry.file "f1" 10 0 false,
         Entry.dir "B" [Entry.file "f2" 20 0 false] false]).2.getLast? =
      some (OutLine.dirLine "A"
        (ownLevelMatchedSize
          ⟨false, true, false, false, [], [], [], [], none, none, none, none,
            1000, false, false, false⟩
          [Entry.file "f1" 10 0 false,
           Entry.dir "B" [Entry.file "f2" 20 0 false] false])) ∧
      (process_directory
        ⟨false, true, false, false, [], [], [], [], none, none, none, none,
          1000, false, false, false⟩ "A"
        [Entry.file "f1" 10 0 false,
         Entry.dir "B" [Entry.file "f2" 20 0 false] false]).1.1 =
        ownLevelMatchedSize
          ⟨false, true, false, false, [], [], [], [], none, none, none, none,
            1000, false, false, false⟩
          [Entry.file "f1" 10 0 false,
           Entry.dir "B" [Entry.file "f2" 20 0 false] false] +
          subdirsMatchedSize
            ⟨false, true, false, false, [], [], [], [], none, none, none, none,
              1000, false, false, false⟩ "A"
            [Entry.file "f1" 10 0 false,
             Entry.dir "B" [Entry.file "f2" 20 0 false] false]) ∧
    ownLevelMatchedSize
      ⟨false, true, false, false, [], [], [], [], none, none, none, none,
        1000, false, false, false⟩
      [Entry.file "f1" 10 0 false,
       Entry.dir "B" [Entry.file "f2" 20 0 false] false] = 10 ∧
    (process_directory
      ⟨false, true, false, false, [], [], [], [], none, none, none, none,
        1000, false, false, false⟩ "A"
      [Entry.file "f1" 10 0 false,
       Entry.dir "B" [Entry.file "f2" 20 0 false] false]).1.1 = 30 := by
  refine ⟨per_directory_report_is_own_level _ _ _ rfl, by decide, by decide⟩

/-- C10: an entry that is neither a directory nor a regular file (fifo,
socket, symlink to such, broken symlink, ...) leaves all four returned
counters of the enclosing directory unchanged, whether or not it is itself a
symlink. -/
theorem other_entry_changes_no_counter (args : Args) (loc name : String)
    (sl : Bool) (rest : List Entry) :
    (process_directory args loc (Entry.other name sl :: rest)).1 =
      (process_directory args loc rest).1 := by
  have hz : ((0, 0, 0, 0, 0) : WalkAcc) = 0 := rfl
  simp [process_directory, process_entries, process_entry, finishDir, hz]

/-- Per-entry numeric contributions: the loop's accumulator quintuple is the
componentwise sum of each visited entry's contribution. -/
theorem process_entries_eq_sum (args : Args) (loc : String) (l : List Entry) :
    (process_entries args loc l).1 =
      (l.map fun e => (process_entry args loc e).1).sum := by
  induction l with
  | nil => rfl
  | cons e rest ih => simp [process_entries, ih]

/-- C8: the four aggregate numbers a directory returns are invariant under
any permutation of the order its entries are visited in (addition of the
per-entry contributions is commutative). -/
theorem aggregates_permutation_invariant (args : Args) (loc : String)
    (l₁ l₂ : List Entry) (h : l₁.Perm l₂) :
    (process_directory args loc l₁).1 = (process_directory args loc l₂).1 := by
  have hsum : (process_entries args loc l₁).1 = (process_entries args loc l₂).1 := by
    rw [process_entries_eq_sum, process_entries_eq_sum]
    exact (h.map fun e => (process_entry args loc e).1).sum_eq
  simp [process_directory, finishDir, hsum]

/-- C8 witness: swapping the two entries of a concrete directory (a file and
a subdirectory) leaves the returned quadruple unchanged. -/
theorem aggregates_permutation_invariant_witness :
    (process_directory
      ⟨false, false, false, false, ["*.txt"], [], [], [], none, none, none, none,
        1000, false, false, false⟩ "r"
      [Entry.file "a.txt" 3 0 false, Entry.dir "B" [Entry.file "b.txt" 4 0 false] false]).1 =
    (process_directory
      ⟨false, false, false, false, ["*.txt"], [], [], [], none, none, none, none,
        1000, false, false, false⟩ "r"
      [Entry.dir "B" [Entry.file "b.txt" 4 0 false] false, Entry.file "a.txt" 3 0 false]).1 :=
  aggregates_permutation_invariant _ _ _ _
    (List.Perm.swap (Entry.dir "B" [Entry.file "b.txt" 4 0 false] false)
      (Entry.file "a.txt" 3 0 false) [])

mutual

/-- One entry's contribution keeps the counting invariants: matched count at
most total count, matched size (own plus subtree) at most total size, and
total count equal to the spec-side non-skipped file count. -/
theorem process_entry_invariant (args : Args) (loc : String) (e : Entry) :
    (process_entry args loc e).1.2.2.1 ≤ (process_entry args loc e).1.2.2.2.2 ∧
      (process_entry args loc e).1.1 + (process_entry args loc e).1.2.1 ≤
        (process_entry args loc e).1.2.2.2.1 ∧
      (process_entry args loc e).1.2.2.2.2 = specFileCountEntry args.follow_links e := by
  cases e with
  | file name size mtime sl =>
    simp only [process_entry, specFileCountEntry]
    by_cases h1 : (sl && !args.follow_links) = true
    · simp [h1]
    · simp only [h1, if_neg, Bool.false_eq_true, if_false]
      by_cases h2 : (matchesName name args && stat_match size mtime args) = true
      · simp [h2]
      · simp [h2]
  | dir name sub sl =>
    have hsub := process_entries_invariant args (loc ++ "/" ++ name) sub
    simp only [process_entry, specFileCountEntry]
    by_cases h1 : (sl && !args.follow_links) = true
    · simp [h1]
    · simp only [h1, Bool.false_eq_true, if_false]
      simp only [finishDir]
      refine ⟨hsub.1, ?_, hsub.2.2⟩
      omega
  | other name sl => simp [process_entry, specFileCountEntry]

/-- The loop accumulators keep the counting invariants. -/
theorem process_entries_invariant (args : Args) (loc : String) (l : List Entry) :
    (process_entries args loc l).1.2.2.1 ≤ (process_entries args loc l).1.2.2.2.2 ∧
      (process_entries args loc l).1.1 + (process_entries args loc l).1.2.1 ≤
        (process_entries args loc l).1.2.2.2.1 ∧
      (process_entries args loc l).1.2.2.2.2 = specFileCountList args.follow_links l := by
  cases l with
  | nil => simp [process_entries, specFileCountList]
  | cons e rest =>
    have h1 := process_entry_invariant args loc e
    have h2 := process_entries_invariant args loc rest
    simp only [process_entries, specFileCountList, Prod.fst_add, Prod.snd_add]
    omega

end

/-- C2: at every level the returned `WalkResult` satisfies
`matchedCount ≤ totalCount` and `matchedSize ≤ totalSize`, and its
`totalCount` equals the number of non-skipped file entries in the whole
subtree (at the root, of the whole tree). -/
theorem walk_result_invariant (args : Args) (loc : String) (entries : List Entry) :
    (process_directory args loc entries).1.2.1 ≤ (process_directory args loc entries).1.2.2.2 ∧
      (process_directory args loc entries).1.1 ≤ (process_directory args loc entries).1.2.2.1 ∧
      (process_directory args loc entries).1.2.2.2 =
        specFileCountList args.follow_links entries := by
  have h := process_entries_invariant args loc entries
  simp only [process_directory, finishDir]
  exact ⟨h.1, h.2.1, h.2.2⟩

/-- Query of claim C3: `orAny = {"*.txt", "*.md"}`, `andAll = {"data*"}`,
`notAny = {"tmp*"}`, `notAll` empty, no case folding, no stat bounds. -/
def c3Args : Args :=
  ⟨false, false, false, false, ["*.txt", "*.md"], ["data*"], ["tmp*"], [],
    none, none, none, none, 1000, false, false, false⟩

/-- C3 counterexample: the claim asserts the evaluator returns false for
`"data_tmp.txt"` (as excluded by `notAny = {"tmp*"}`), but glob matching is
anchored at the start of the name, so `"tmp*"` does not match
`"data_tmp.txt"` and the evaluator returns true. -/
theorem query_truth_table_counterexample : matchesName "data_tmp.txt" c3Args = true := by
  decide

/-- C3 amended: with `orAny = {"*.txt", "*.md"}`, `andAll = {"data*"}`,
`notAny = {"tmp*"}`, `notAll` empty and no case folding, the evaluator
returns true for `"data_report.txt"`, true for `"data_tmp.txt"` (the
anchored pattern `"tmp*"` only matches names that start with `tmp`, so the
`notAny` group does not exclude it), and false for `"report.txt"` (fails the
`andAll` group). -/
theorem query_truth_table_amended :
    matchesName "data_report.txt" c3Args = true ∧
      matchesName "data_tmp.txt" c3Args = true ∧
      matchesName "report.txt" c3Args = false := by
  decide

/-- C4: when both bounds are present and `min > max`, the range matcher
accepts exactly the values not strictly between `max` and `min`, i.e. those
with `value ≤ max` or `value ≥ min`; values equal to either bound always
match. -/
theorem inverted_range_is_exclusion (mn mx v : ℚ) (h : mx < mn) :
    int_match_pair (some mn) (some mx) v = true ↔ (v ≤ mx ∨ mn ≤ v) := by
  simp only [int_match_pair, if_neg (not_le.mpr h), decide_eq_true_eq, not_and_or, not_lt]

/-- C4 witness: the inverted bound `(min = 100, max = 50)` rejects 75 and
accepts 50, 100, 10 and 1000. -/
theorem inverted_range_is_exclusion_witness :
    ((50 : ℚ) < 100 ∧
      (int_match_pair (some 100) (some 50) 75 = true ↔ ((75 : ℚ) ≤ 50 ∨ (100 : ℚ) ≤ 75))) ∧
    int_match_pair (some 100) (some 50) 75 = false ∧
    int_match_pair (some 100) (some 50) 50 = true ∧
    int_match_pair (some 100) (some 50) 100 = true ∧
    int_match_pair (some 100) (some 50) 10 = true ∧
    int_match_pair (some 100) (some 50) 1000 = true := by
  refine ⟨⟨by norm_num, inverted_range_is_exclusion 100 50 75 (by norm_num)⟩, ?_, ?_, ?_, ?_, ?_⟩
  all_goals norm_num [int_match_pair]

/-- C5: the size literal parser yields exactly 1500 for `"1.5K"` and exactly
2048 for `"2Ki"`; `to_int_size` consumes only the literal text (it has no
display-scale input), so these values cannot depend on the binary-vs-decimal
display setting. -/
theorem size_literal_values :
    to_int_size "1.5K" = Except.ok 1500 ∧ to_int_size "2Ki" = Except.ok 2048 := by
  constructor
  · have h : to_int_size "1.5K" =
        Except.ok (((natOfDigits ['1'] : ℚ) + (natOfDigits ['5'] : ℚ) / 10 ^ 1) *
          (1000 : ℚ) ^ 1) := rfl
    have e1 : natOfDigits ['1'] = 1 := rfl
    have e5 : natOfDigits ['5'] = 5 := rfl
    rw [h, e1, e5]; norm_num
  · have h : to_int_size "2Ki" =
        Except.ok ((natOfDigits ['2'] : ℚ) * (1024 : ℚ) ^ 1) := rfl
    have e2 : natOfDigits ['2'] = 2 := rfl
    rw [h, e2]; norm_num

/-- Evaluation principle for `durResolve`: once the delta seconds, month
total and year total of a unit table are computed, the resolution is the
replace-then-subtract computation on those numbers. -/
theorem durResolve_eval (units : List (String × Nat)) (now : DateTime)
    (ds : Int) (mt ys : Nat)
    (hds : ((getUnit units "d" + getUnit units "day" +
        7 * (getUnit units "w" + getUnit units "week")) * 86400
      + (getUnit units "h" + getUnit units "hour") * 3600
      + (getUnit units "m" + getUnit units "min" + getUnit units "minute") * 60
      + (getUnit units "" + getUnit units "sec" + getUnit units "second") : Int) = ds)
    (hmt : getUnit units "M" + getUnit units "month" = mt)
    (hys : getUnit units "y" + getUnit units "year" + mt / 12 = ys) :
    durResolve units now =
      match replaceYM now
          (now.year - (if ((now.month : Int) - ((mt % 12 : Nat) : Int) ≤ 0) then ys + 1 else ys))
          ((if ((now.month : Int) - ((mt % 12 : Nat) : Int) ≤ 0)
            then (now.month : Int) - ((mt % 12 : Nat) : Int) + 12
            else (now.month : Int) - ((mt % 12 : Nat) : Int))).toNat with
      | Except.ok dt => subDelta (timestamp dt) ds
      | Except.error e => Except.error e := by
  subst hmt
  subst hys
  subst hds
  simp only [durResolve]
  by_cases hc : ((now.month : Int) -
      (((getUnit units "M" + getUnit units "month") % 12 : Nat) : Int) ≤ 0)
  · simp only [hc, if_true, if_pos hc]
  · simp only [hc, if_false, if_neg hc]

/-- Unit table accumulated from the literal `"1week_5min"`. -/
def durTableWeekMin : List (String × Nat) :=
  [("y", 0), ("year", 0), ("M", 0), ("month", 0), ("w", 0), ("week", 1),
   ("d", 0), ("day", 0), ("h", 0), ("hour", 0), ("m", 0), ("min", 5),
   ("minute", 0), ("", 0), ("sec", 0), ("second", 0)]

/-- C6: for every valid reference instant (whose shifted value stays in the
representable `datetime` range), parsing `"1week_5min"` yields the timestamp
of `now` minus 7 days minus 5 minutes, exact to the second. -/
theorem duration_week_min_exact (now : DateTime) (hv : now.Valid)
    (hlo : minTimestamp ≤ timestamp now - 605100)
    (hhi : timestamp now - 605100 ≤ maxTimestamp) :
    to_int_date "1week_5min" now = Except.ok (timestamp now - (7 * 86400 + 5 * 60)) := by
  have hiso : fromisoformatModel "1week_5min" = none := rfl
  have hu : durUnits "1week_5min" = Except.ok durTableWeekMin := rfl
  simp only [to_int_date, hiso, hu]
  rw [durResolve_eval durTableWeekMin now 605100 0 0 rfl rfl rfl]
  have hc : ¬((now.month : Int) - (((0 : Nat) % 12 : Nat) : Int) ≤ 0) := by
    have := hv.2.2.1
    push_cast
    omega
  rw [if_neg hc, if_neg hc]
  simp only [Nat.zero_mod, Int.natCast_zero, sub_zero, Nat.sub_zero, Int.toNat_natCast]
  have hrep : replaceYM now now.year now.month = Except.ok now := by
    simp only [replaceYM]
    rw [if_pos hv]
  rw [hrep]
  show subDelta (timestamp now) 605100 = Except.ok (timestamp now - (7 * 86400 + 5 * 60))
  simp only [subDelta]
  rw [if_pos ⟨hlo, hhi⟩]
  norm_num

/-- C6 witness: instantiated at 2024-03-15T10:30:00. -/
theorem duration_week_min_exact_witness :
    to_int_date "1week_5min" ⟨2024, 3, 15, 10, 30, 0⟩ =
      Except.ok (timestamp ⟨2024, 3, 15, 10, 30, 0⟩ - (7 * 86400 + 5 * 60)) :=
  duration_week_min_exact ⟨2024, 3, 15, 10, 30, 0⟩ (by decide) (by decide) (by decide)

/-- Unit table accumulated from the literal `"13month"`. -/
def durTableMonth13 : List (String × Nat) :=
  [("y", 0), ("year", 0), ("M", 0), ("month", 13), ("w", 0), ("week", 0),
   ("d", 0), ("day", 0), ("h", 0), ("hour", 0), ("m", 0), ("min", 0),
   ("minute", 0), ("", 0), ("sec", 0), ("second", 0)]

/-- Unit table accumulated from the literal `"1year_1month"`. -/
def durTableYearMonth : List (String × Nat) :=
  [("y", 0), ("year", 1), ("M", 0), ("month", 1), ("w", 0), ("week", 0),
   ("d", 0), ("day", 0), ("h", 0), ("hour", 0), ("m", 0), ("min", 0),
   ("minute", 0), ("", 0), ("sec", 0), ("second", 0)]

/-- C7: for a March reference instant whose month/year-adjusted date is
representable, `"13month"` and `"1year_1month"` resolve to the same absolute
calendar month — both to February of the preceding year, with the same
timestamp: 13 months reduce to 1 year (carry) plus 1 month, and March minus
one month is February with no further borrow. -/
theorem duration_month_year_carry (now : DateTime) (hv : now.Valid) (hm : now.month = 3)
    (hy : 2 ≤ now.year)
    (hd : now.day ≤ daysInMonth (now.year - 1) 2)
    (hr1 : minTimestamp ≤ timestamp ⟨now.year - 1, 2, now.day, now.hour, now.minute, now.second⟩)
    (hr2 : timestamp ⟨now.year - 1, 2, now.day, now.hour, now.minute, now.second⟩ ≤ maxTimestamp) :
    to_int_date "13month" now =
        Except.ok (timestamp ⟨now.year - 1, 2, now.day, now.hour, now.minute, now.second⟩) ∧
      to_int_date "1year_1month" now =
        Except.ok (timestamp ⟨now.year - 1, 2, now.day, now.hour, now.minute, now.second⟩) := by
  obtain ⟨h1, h2, h3, h4, h5, h6, h7, h8, h9⟩ := hv
  have hrep : replaceYM now (now.year - 1) 2 =
      Except.ok ⟨now.year - 1, 2, now.day, now.hour, now.minute, now.second⟩ := by
    simp only [replaceYM]
    rw [if_pos]
    exact ⟨show 1 ≤ now.year - 1 by omega, show now.year - 1 ≤ 9999 by omega,
      by norm_num, by norm_num, h5, hd, h7, h8, h9⟩
  have hsub : subDelta
      (timestamp ⟨now.year - 1, 2, now.day, now.hour, now.minute, now.second⟩) 0 =
      Except.ok (timestamp ⟨now.year - 1, 2, now.day, now.hour, now.minute, now.second⟩) := by
    simp only [subDelta, sub_zero]
    rw [if_pos ⟨hr1, hr2⟩]
  constructor
  · have hiso : fromisoformatModel "13month" = none := rfl
    have hu : durUnits "13month" = Except.ok durTableMonth13 := rfl
    simp only [to_int_date, hiso, hu]
    rw [durResolve_eval durTableMonth13 now 0 13 1 rfl rfl rfl]
    have hc : ¬((now.month : Int) - (((13 : Nat) % 12 : Nat) : Int) ≤ 0) := by
      rw [hm]; norm_num
    rw [if_neg hc, if_neg hc, hm]
    have h2n : (((3 : Nat) : Int) - (((13 : Nat) % 12 : Nat) : Int)).toNat = 2 := by decide
    rw [h2n, hrep]
    show subDelta (timestamp ⟨now.year - 1, 2, now.day, now.hour, now.minute, now.second⟩) 0 = _
    rw [hsub]
  · have hiso : fromisoformatModel "1year_1month" = none := rfl
    have hu : durUnits "1year_1month" = Except.ok durTableYearMonth := rfl
    simp only [to_int_date, hiso, hu]
    rw [durResolve_eval durTableYearMonth now 0 1 1 rfl rfl rfl]
    have hc : ¬((now.month : Int) - (((1 : Nat) % 12 : Nat) : Int) ≤ 0) := by
      rw [hm]; norm_num
    rw [if_neg hc, if_neg hc, hm]
    have h2n : (((3 : Nat) : Int) - (((1 : Nat) % 12 : Nat) : Int)).toNat = 2 := by decide
    rw [h2n, hrep]
    show subDelta (timestamp ⟨now.year - 1, 2, now.day, now.hour, now.minute, now.second⟩) 0 = _
    rw [hsub]

/-- C7 witness: at 2024-03-15T10:30:00, both literals resolve to
2023-02-15T10:30:00. -/
theorem duration_month_year_carry_witness :
    to_int_date "13month" ⟨2024, 3, 15, 10, 30, 0⟩ =
        Except.ok (timestamp ⟨2023, 2, 15, 10, 30, 0⟩) ∧
      to_int_date "1year_1month" ⟨2024, 3, 15, 10, 30, 0⟩ =
        Except.ok (timestamp ⟨2023, 2, 15, 10, 30, 0⟩) :=
  duration_month_year_carry ⟨2024, 3, 15, 10, 30, 0⟩ (by decide) rfl (by decide)
    (by decide) (by decide) (by decide)

/-- While no scale prefix has been fixed, reaching a character that is not a
space, underscore, digit or period and whose uppercased form names no scale
prefix makes the scanner raise the `Unknown symbol` error, whatever came
before and whatever follows. -/
theorem sizeScan_unknown_symbol (c : Char) (suf : List Char)
    (hcsp : ¬(c = ' ' ∨ c = '_')) (hcd : ¬(('0' ≤ c ∧ c ≤ '9') ∨ c = '.'))
    (hpfx : scalePrefixIndex c.toUpper = none) :
    ∀ (pre number : List Char),
      (∀ x ∈ pre, x = ' ' ∨ x = '_' ∨ ('0' ≤ x ∧ x ≤ '9') ∨ x = '.') →
      sizeScan (pre ++ c :: suf) number =
        Except.error ("Unknown symbol " ++ String.singleton c.toUpper) := by
  intro pre
  induction pre with
  | nil =>
    intro number _
    simp only [List.nil_append, sizeScan]
    rw [if_neg hcsp, if_neg hcd, hpfx]
  | cons x pre ih =>
    intro number hx
    have hxd := hx x (List.mem_cons_self x pre)
    have htail : ∀ y ∈ pre, y = ' ' ∨ y = '_' ∨ ('0' ≤ y ∧ y ≤ '9') ∨ y = '.' :=
      fun y hy => hx y (List.mem_cons_of_mem _ hy)
    simp only [List.cons_append, sizeScan]
    rcases hxd with h | h | h | h
    · rw [if_pos (Or.inl h)]
      exact ih number htail
    · rw [if_pos (Or.inr h)]
      exact ih number htail
    · have hns : ¬(x = ' ' ∨ x = '_') := by
        rintro (rfl | rfl) <;> revert h <;> decide
      rw [if_neg hns, if_pos (Or.inl h)]
      exact ih _ htail
    · have hns : ¬(x = ' ' ∨ x = '_') := by
        rintro (rfl | rfl) <;> revert h <;> decide
      rw [if_neg hns, if_pos (Or.inr h)]
      exact ih _ htail

/-- C9: whenever, before any scale prefix has been fixed (everything earlier
in the string is a space, underscore, digit or period), the size scanner
meets a character that is none of these and whose uppercased form matches no
known prefix letter, `to_int_size` fails with a parse error — and that
failure is fatal at startup: for a command line carrying such a minimum-size
literal, the whole run errors out before any traversal, whatever the
directory tree holds. -/
theorem size_literal_parse_error_is_fatal (s : String) (pre suf : List Char) (c : Char)
    (hsplit : s.toList = pre ++ c :: suf)
    (hpre : ∀ x ∈ pre, x = ' ' ∨ x = '_' ∨ ('0' ≤ x ∧ x ≤ '9') ∨ x = '.')
    (hc : ¬(c = ' ' ∨ c = '_' ∨ ('0' ≤ c ∧ c ≤ '9') ∨ c = '.'))
    (hpfx : scalePrefixIndex c.toUpper = none) :
    (∃ msg, to_int_size s = Except.error msg) ∧
      ∀ (isdir : String → Bool) (cli : Cli) (now : DateTime) (tree : List Entry),
        cli.min_size = some s → cli.newer = none → cli.older = none →
        ∃ msg, main_model isdir cli now tree = Except.error msg := by
  have hcsp : ¬(c = ' ' ∨ c = '_') := by tauto
  have hcd : ¬(('0' ≤ c ∧ c ≤ '9') ∨ c = '.') := by tauto
  have hscan : sizeScan s.toList [] =
      Except.error ("Unknown symbol " ++ String.singleton c.toUpper) := by
    rw [hsplit]
    exact sizeScan_unknown_symbol c suf hcsp hcd hpfx pre [] hpre
  have herr : to_int_size s =
      Except.error ("Unknown symbol " ++ String.singleton c.toUpper) := by
    simp only [to_int_size, hscan]
  refine ⟨⟨_, herr⟩, ?_⟩
  intro isdir cli now tree hmin hnew hold
  refine ⟨"Error parsing a size argument: " ++
    ("Unknown symbol " ++ String.singleton c.toUpper), ?_⟩
  simp only [main_model, process_args_model, hnew, hold, hmin, parseOpt, herr]

/-- C9 witness: the literal `"12x3"` (benign prefix `1`, `2`; offender `x`)
fails to parse, and a run with `--min-size 12x3` fails before walking a
nonempty concrete tree. -/
theorem size_literal_parse_error_is_fatal_witness :
    (∃ msg, to_int_size "12x3" = Except.error msg) ∧
      ∃ msg, main_model (fun _ => true)
          ⟨[], false, false, false, false, false, some "p", 1000, false, false,
            [], [], [], [], some "12x3", none, none, none⟩
          ⟨2024, 3, 15, 10, 30, 0⟩ [Entry.file "a" 1 0 false] = Except.error msg := by
  have h := size_literal_parse_error_is_fatal "12x3" ['1', '2'] ['3'] 'x' rfl
    (by decide) (by decide) rfl
  exact ⟨h.1, h.2 (fun _ => true) _ _ _ rfl rfl rfl⟩
